import Mathlib

/-!
Verification of the Mermaid-to-image Markdown converter core
(`src/converter.py` of md-renderguard).

Python strings are modelled as `List Char`; a Python string index is a
character position.  Functions that can raise in Python return `Option`
(`none` models an uncaught exception).  Filesystem, network and clock
effects are modelled as explicit environment records of oracle functions
handed to the embedded code.
-/

namespace MdRenderGuard

/-! ## Python string primitives -/

/-- Whitespace as recognised by Python's `str.strip` / `re` `\s` on `str`
(ASCII whitespace plus the standard Unicode space code points). -/
def pyIsSpace (c : Char) : Bool :=
  c.toNat = 0x20 || c.toNat = 0x09 || c.toNat = 0x0a || c.toNat = 0x0d ||
  c.toNat = 0x0b || c.toNat = 0x0c || c.toNat = 0x1c || c.toNat = 0x1d ||
  c.toNat = 0x1e || c.toNat = 0x1f || c.toNat = 0x85 || c.toNat = 0xa0 ||
  c.toNat = 0x1680 || (0x2000 ≤ c.toNat && c.toNat ≤ 0x200a) ||
  c.toNat = 0x2028 || c.toNat = 0x2029 || c.toNat = 0x202f ||
  c.toNat = 0x205f || c.toNat = 0x3000

/-- Line-boundary characters of Python's `str.splitlines`. -/
def pyIsLineBreak (c : Char) : Bool :=
  c.toNat = 0x0a || c.toNat = 0x0d || c.toNat = 0x0b || c.toNat = 0x0c ||
  c.toNat = 0x1c || c.toNat = 0x1d || c.toNat = 0x1e || c.toNat = 0x85 ||
  c.toNat = 0x2028 || c.toNat = 0x2029

/-- Python `str.strip()`: drop leading and trailing whitespace. -/
def pyStrip (l : List Char) : List Char :=
  ((l.dropWhile pyIsSpace).reverse.dropWhile pyIsSpace).reverse

/-- Worker for `pySplitlines`.  The first argument is structural fuel
(always called with at least the length of the list, which suffices since
every step consumes at least one character). -/
def pySplitlinesGo : Nat → List Char → List Char → List (List Char)
  | 0, _, acc => if acc.isEmpty then [] else [acc.reverse]
  | _ + 1, [], acc => if acc.isEmpty then [] else [acc.reverse]
  | fuel + 1, c :: rest, acc =>
    if pyIsLineBreak c then
      acc.reverse ::
        (match rest with
          | d :: rest2 =>
            if c.toNat = 0x0d && d.toNat = 0x0a then pySplitlinesGo fuel rest2 []
            else pySplitlinesGo fuel (d :: rest2) []
          | [] => pySplitlinesGo fuel [] [])
    else pySplitlinesGo fuel rest (c :: acc)

/-- Python `str.splitlines()`: split at line boundaries, treating `\r\n`
as a single boundary, with no empty final line for a trailing break. -/
def pySplitlines (l : List Char) : List (List Char) :=
  pySplitlinesGo (l.length + 1) l []

/-- Normalise a Python slice index: negative indices count from the end,
then the result is clamped to `[0, n]`. -/
def pyIdx (n : Nat) (i : Int) : Nat :=
  (min (max (if i < 0 then (n : Int) + i else i) 0) (n : Int)).toNat

/-- Python `s[:i]`. -/
def pyTakeTo (s : List Char) (i : Int) : List Char :=
  s.take (pyIdx s.length i)

/-- Python `s[i:]`. -/
def pyDropFrom (s : List Char) (i : Int) : List Char :=
  s.drop (pyIdx s.length i)

/-! ## Block Locator: `extract_mermaid_blocks`

The source scans with the regex `r"```mermaid\s+(.*?)```"` under
`re.DOTALL` and `re.finditer` (leftmost, non-overlapping matches).  A
match at position `p` requires the literal opener at `p`, at least one
whitespace character after it, and a closing triple backtick later; the
greedy `\s+` takes the maximal whitespace run (no backtick is whitespace,
so backtracking it never changes the overall match), and the lazy `(.*?)`
ends at the first closing fence. -/

def mermaidOpen : List Char := "```mermaid".data

def fence3 : List Char := "```".data

/-- Index of the first occurrence of a closing fence in `l`, if any. -/
def findFence3 : List Char → Option Nat
  | [] => none
  | l@(_ :: t) =>
    if fence3.isPrefixOf l then some 0 else (findFence3 t).map (· + 1)

/-- Try to match the regex at the head of `l`.  On success, return the
captured group (un-stripped) together with the total match length. -/
def matchMermaidAt (l : List Char) : Option (List Char × Nat) :=
  if mermaidOpen.isPrefixOf l then
    let rest := l.drop 10
    match rest with
    | [] => none
    | c :: _ =>
      if pyIsSpace c then
        let w := (rest.takeWhile pyIsSpace).length
        let rest2 := rest.drop w
        match findFence3 rest2 with
        | some q => some (rest2.take q, 10 + w + q + 3)
        | none => none
      else none
  else none

/-- Scanner for `re.finditer`: advance one character on no match, and
skip the whole match otherwise (non-overlapping matches).  The fuel is a
structural termination bound; each step consumes at least one character,
so fuel `≥` length always suffices. -/
def extractAux : Nat → List Char → Nat → List (List Char × Nat × Nat)
  | 0, _, _ => []
  | _ + 1, [], _ => []
  | fuel + 1, l@(_ :: t), pos =>
    match matchMermaidAt l with
    | some (g, mlen) =>
      (pyStrip g, pos, pos + mlen) :: extractAux fuel (l.drop mlen) (pos + mlen)
    | none => extractAux fuel t (pos + 1)

/-- `extract_mermaid_blocks`: the list of `(block_text, start_pos, end_pos)`
tuples, where `block_text` is the stripped captured group and the
positions delimit the entire match including the fences. -/
def extract_mermaid_blocks (markdown_content : List Char) :
    List (List Char × Nat × Nat) :=
  extractAux markdown_content.length markdown_content 0

example : extract_mermaid_blocks "a ```mermaid\ngraph TD\n``` b".data =
    [("graph TD".data, 2, 25)] := by decide

example : extract_mermaid_blocks "no blocks here".data = [] := by decide

example : extract_mermaid_blocks "```mermaidx```".data = [] := by decide

/-! ## Type Classifier: `_determine_diagram_type` -/

/-- The keyword table of `_determine_diagram_type`, in the source's
insertion order (Python dicts iterate in insertion order). -/
def typeMap : List (List Char × List Char) :=
  [("sequenceDiagram".data, "sequence".data),
   ("classDiagram".data, "classdiagram".data),
   ("stateDiagram-v2".data, "statediagram".data),
   ("stateDiagram".data, "statediagram".data),
   ("erDiagram".data, "erdiagram".data),
   ("journey".data, "journey".data),
   ("gantt".data, "gantt".data),
   ("pie".data, "pie".data),
   ("flowchart".data, "flowchart".data),
   ("graph".data, "flowchart".data),
   ("requirementDiagram".data, "requirement".data),
   ("gitGraph".data, "gitgraph".data)]

/-- First non-empty line of the stripped code that does not start with
the `%%` comment marker, itself stripped; `""` when there is none. -/
def firstSignificantLine (mermaid_code : List Char) : List Char :=
  (((pySplitlines (pyStrip mermaid_code)).map pyStrip).find?
    (fun l => !l.isEmpty && !("%%".data.isPrefixOf l))).getD []

/-- `_determine_diagram_type`: map the first significant line to a type
tag by keyword prefix, first table entry wins, defaulting to
`"flowchart"` (also for empty input). -/
def determine_diagram_type (mermaid_code : List Char) : List Char :=
  if mermaid_code.isEmpty then "flowchart".data
  else
    match typeMap.find? (fun kv => kv.1.isPrefixOf (firstSignificantLine mermaid_code)) with
    | some kv => kv.2
    | none => "flowchart".data

example : determine_diagram_type "sequenceDiagram\nA->>B: hi".data = "sequence".data := by
  decide
example : determine_diagram_type "%% c\n\n  graph TD".data = "flowchart".data := by decide
example : determine_diagram_type "gitGraph:".data = "gitgraph".data := by decide
example : determine_diagram_type "".data = "flowchart".data := by decide

/-! ## Filename Synthesizer: `create_image_name`

`hashlib.md5(mermaid_code.encode("utf-8")).hexdigest()[:8]` is embedded
as a literal MD5 (RFC 1321) over the UTF-8 bytes, computed with `Nat`
arithmetic modulo `2 ^ 32`. -/

/-- UTF-8 encoding of one character, as byte values. -/
def utf8Bytes (c : Char) : List Nat :=
  let v := c.toNat
  if v < 0x80 then [v]
  else if v < 0x800 then [0xc0 + v / 64, 0x80 + v % 64]
  else if v < 0x10000 then
    [0xe0 + v / 4096, 0x80 + v / 64 % 64, 0x80 + v % 64]
  else
    [0xf0 + v / 262144, 0x80 + v / 4096 % 64, 0x80 + v / 64 % 64, 0x80 + v % 64]

/-- Python `str.encode("utf-8")`. -/
def utf8Encode (s : List Char) : List Nat :=
  s.flatMap utf8Bytes

/-- The 64 MD5 sine-derived round constants. -/
def md5K : List Nat :=
  [0xd76aa478, 0xe8c7b756, 0x242070db, 0xc1bdceee,
   0xf57c0faf, 0x4787c62a, 0xa8304613, 0xfd469501,
   0x698098d8, 0x8b44f7af, 0xffff5bb1, 0x895cd7be,
   0x6b901122, 0xfd987193, 0xa679438e, 0x49b40821,
   0xf61e2562, 0xc040b340, 0x265e5a51, 0xe9b6c7aa,
   0xd62f105d, 0x02441453, 0xd8a1e681, 0xe7d3fbc8,
   0x21e1cde6, 0xc33707d6, 0xf4d50d87, 0x455a14ed,
   0xa9e3e905, 0xfcefa3f8, 0x676f02d9, 0x8d2a4c8a,
   0xfffa3942, 0x8771f681, 0x6d9d6122, 0xfde5380c,
   0xa4beea44, 0x4bdecfa9, 0xf6bb4b60, 0xbebfbc70,
   0x289b7ec6, 0xeaa127fa, 0xd4ef3085, 0x04881d05,
   0xd9d4d039, 0xe6db99e5, 0x1fa27cf8, 0xc4ac5665,
   0xf4292244, 0x432aff97, 0xab9423a7, 0xfc93a039,
   0x655b59c3, 0x8f0ccc92, 0xffeff47d, 0x85845dd1,
   0x6fa87e4f, 0xfe2ce6e0, 0xa3014314, 0x4e0811a1,
   0xf7537e82, 0xbd3af235, 0x2ad7d2bb, 0xeb86d391]

/-- The 64 MD5 per-round left-rotation amounts. -/
def md5S : List Nat :=
  [7, 12, 17, 22, 7, 12, 17, 22, 7, 12, 17, 22, 7, 12, 17, 22,
   5, 9, 14, 20, 5, 9, 14, 20, 5, 9, 14, 20, 5, 9, 14, 20,
   4, 11, 16, 23, 4, 11, 16, 23, 4, 11, 16, 23, 4, 11, 16, 23,
   6, 10, 15, 21, 6, 10, 15, 21, 6, 10, 15, 21, 6, 10, 15, 21]

/-- 32-bit left rotation on `Nat` values below `2 ^ 32`. -/
def rotl32 (x s : Nat) : Nat :=
  (x <<< s) % 2 ^ 32 ||| x >>> (32 - s)

/-- Bitwise complement within 32 bits. -/
def not32 (x : Nat) : Nat := 0xffffffff ^^^ x

/-- MD5 padding: append `0x80`, zero-pad to 56 mod 64, then the original
bit length as 8 little-endian bytes. -/
def md5Pad (msg : List Nat) : List Nat :=
  let n := msg.length
  let padZeros := (119 - n % 64) % 64
  let bitLen := n * 8 % 2 ^ 64
  msg ++ [0x80] ++ List.replicate padZeros 0 ++
    (List.range 8).map (fun i => bitLen / 2 ^ (8 * i) % 256)

/-- Little-endian 32-bit words of one 64-byte chunk. -/
def md5Words (chunk : List Nat) : List Nat :=
  (List.range 16).map (fun j =>
    chunk.getD (4 * j) 0 + 256 * chunk.getD (4 * j + 1) 0 +
    65536 * chunk.getD (4 * j + 2) 0 + 16777216 * chunk.getD (4 * j + 3) 0)

/-- One MD5 round step: state `(a, b, c, d)` and round index `i`. -/
def md5Step (m : List Nat) (st : Nat × Nat × Nat × Nat) (i : Nat) :
    Nat × Nat × Nat × Nat :=
  let (a, b, c, d) := st
  let f :=
    if i < 16 then b &&& c ||| not32 b &&& d
    else if i < 32 then d &&& b ||| not32 d &&& c
    else if i < 48 then b ^^^ c ^^^ d
    else c ^^^ (b ||| not32 d)
  let g :=
    if i < 16 then i
    else if i < 32 then (5 * i + 1) % 16
    else if i < 48 then (3 * i + 5) % 16
    else 7 * i % 16
  let tmp := (f + a + md5K.getD i 0 + m.getD g 0) % 2 ^ 32
  (d, (b + rotl32 tmp (md5S.getD i 0)) % 2 ^ 32, b, c)

/-- Process one 64-byte chunk against the running state. -/
def md5Chunk (st : Nat × Nat × Nat × Nat) (chunk : List Nat) :
    Nat × Nat × Nat × Nat :=
  let m := md5Words chunk
  let (a, b, c, d) := (List.range 64).foldl (md5Step m) st
  let (a0, b0, c0, d0) := st
  ((a0 + a) % 2 ^ 32, (b0 + b) % 2 ^ 32, (c0 + c) % 2 ^ 32, (d0 + d) % 2 ^ 32)

/-- Fold over the 64-byte chunks of the padded message.  The fuel is a
structural termination bound (fuel `≥` number of chunks suffices). -/
def md5Chunks : Nat → Nat × Nat × Nat × Nat → List Nat → Nat × Nat × Nat × Nat
  | 0, st, _ => st
  | _ + 1, st, [] => st
  | fuel + 1, st, bytes => md5Chunks fuel (md5Chunk st (bytes.take 64)) (bytes.drop 64)

/-- Lowercase hex digits of one byte. -/
def byteHex (b : Nat) : List Char :=
  [Nat.digitChar (b / 16 % 16), Nat.digitChar (b % 16)]

/-- Little-endian bytes of a 32-bit word. -/
def wordBytes (w : Nat) : List Nat :=
  [w % 256, w / 256 % 256, w / 65536 % 256, w / 16777216 % 256]

/-- `hashlib.md5(bytes).hexdigest()`: 32 lowercase hex characters. -/
def md5Hexdigest (msg : List Nat) : List Char :=
  let padded := md5Pad msg
  let (a, b, c, d) :=
    md5Chunks (padded.length + 1) (0x67452301, 0xefcdab89, 0x98badcfe, 0x10325476) padded
  ([a, b, c, d].flatMap wordBytes).flatMap byteHex

/-- Python `\w` word characters, plus hyphen and dot: the characters that
`re.sub(r"[^\w\-.]+", "", prefix)` keeps.  (`\w` is modelled for ASCII;
the source is Unicode-aware there.) -/
def pyKeepFilenameChar (c : Char) : Bool :=
  c.isAlphanum || c.toNat = 0x5f || c.toNat = 0x2d || c.toNat = 0x2e

/-- Decimal digits of `n`, most significant first, with an accumulator.
The fuel is a structural termination bound (fuel `>` `n` suffices). -/
def natToStrAux : Nat → Nat → List Char → List Char
  | 0, _, acc => acc
  | fuel + 1, n, acc =>
    if n < 10 then Nat.digitChar n :: acc
    else natToStrAux fuel (n / 10) (Nat.digitChar (n % 10) :: acc)

/-- Python `str(n)` for a non-negative integer. -/
def natToStr (n : Nat) : List Char :=
  natToStrAux (n + 1) n []

example : natToStr 0 = "0".data := by decide
example : natToStr 1234 = "1234".data := by decide

/-- `re.sub(r"[^\w\-.]+", "", p)` followed by the `or "diagram"`
fallback for an empty sanitization result. -/
def pySanitize (p : List Char) : List Char :=
  let safe0 := p.filter pyKeepFilenameChar
  if safe0.isEmpty then "diagram".data else safe0

/-- `hashlib.md5(mermaid_code.encode("utf-8")).hexdigest()[:8]`. -/
def codeHash8 (mermaid_code : List Char) : List Char :=
  (md5Hexdigest (utf8Encode mermaid_code)).take 8

/-- `create_image_name`: `{sanitized-prefix}-{index}-{hash8}.{format}`,
where the sanitized prefix falls back to `"diagram"` when empty and the
hash is the first 8 hex characters of the MD5 of the UTF-8 diagram text. -/
def create_image_name (p : List Char) (index : Nat) (mermaid_code : List Char)
    (image_format : List Char) : List Char :=
  pySanitize p ++ "-".data ++ natToStr index ++ "-".data ++
    codeHash8 mermaid_code ++ ".".data ++ image_format.map Char.toLower

/-! ## Document Rebuilder: `replace_mermaid_with_images_enhanced`

`diagram_config` is modelled as an association list from diagram-type tag
to a per-type record.  Only `max_width` is read by the rebuilder (the
`max_height`/`min_width` reads are commented out in the source); the
outer `Option` is a missing key (Python `dict.get` default `"600px"`)
and the inner `Option` is an explicit JSON `null`/Python `None` value. -/

structure TypeCfg where
  max_width : Option (Option (List Char)) := none
  deriving DecidableEq

abbrev DiagramConfig : Type := List (List Char × TypeCfg)

/-- Python `diagram_config.get(key)` on the association list. -/
def cfgGet (dc : DiagramConfig) (key : List Char) : Option TypeCfg :=
  (dc.find? (fun kv => kv.1 == key)).map (·.2)

/-- A per-block conversion result as handed to the rebuilder:
`(relative_image_path, success_flag)`. -/
abbrev OutcomeInfo : Type := Option (List Char) × Bool

/-- Python truthiness of `success_flag and relative_image_path`:
the flag is true and the path is neither `None` nor empty. -/
def outcomeTruthy (o : OutcomeInfo) : Bool :=
  o.2 && (match o.1 with | some p => !p.isEmpty | none => false)

def imgStyleStr : List Char :=
  "max-width: 100%; height: auto; display: block; margin: 0 auto;".data

/-- The replacement text the rebuilder generates for one block: an image
reference (HTML wrapper or bare Markdown) on success, or the original
block re-wrapped in its fence markers on failure.  The failure branch
reproduces the source exactly: `warning_comment` there is the f-string
`"\n"`, i.e. a bare newline. -/
def replacementFor (dc : DiagramConfig) (use_html_wrapper : Bool)
    (block_text : List Char) (o : OutcomeInfo) : List Char :=
  if outcomeTruthy o then
    let rel := o.1.getD []
    let diagram_type := determine_diagram_type block_text
    let config := (cfgGet dc diagram_type).getD
      ((cfgGet dc "default".data).getD {})
    let max_width := config.max_width.getD (some "600px".data)
    let alt_text := "Mermaid Diagram: ".data ++ diagram_type
    if use_html_wrapper then
      let style_parts :=
        match max_width with
        | some w => if w.isEmpty then [] else ["max-width: ".data ++ w ++ ";".data]
        | none => []
      let div_style :=
        (List.intercalate " ".data (style_parts.filter (fun s => !s.isEmpty))) ++
          " margin: 1em auto; text-align: center;".data
      "\n\n<div style=\"".data ++ pyStrip div_style ++ "\">\n".data ++
        "    <img src=\"".data ++ rel ++ "\" alt=\"".data ++ alt_text ++
        "\" style=\"".data ++ imgStyleStr ++ "\" />\n".data ++
        "</div>\n\n".data
    else
      "\n\n![".data ++ alt_text ++ "](".data ++ rel ++ ")\n\n".data
  else
    let warning_comment := "\n".data
    let original_block_formatted :=
      "```mermaid\n".data ++ pyStrip block_text ++ "\n```\n".data
    "\n\n".data ++ warning_comment ++ original_block_formatted ++ "\n".data

/-- The per-block loop of `replace_mermaid_with_images_enhanced`:
`image_paths_info[i]` is the head of the second list (`none` models the
`IndexError` when it is exhausted), the block span shifted by the running
`offset` is spliced out of the partially rewritten string, and `offset`
accumulates `len(replacement) - (end_pos - start_pos)`. -/
def replaceLoop (dc : DiagramConfig) (use_html_wrapper : Bool) :
    List (List Char × Nat × Nat) → List OutcomeInfo →
    List Char → Int → Nat → Option (List Char × Nat)
  | [], _, content, _, cnt => some (content, cnt)
  | _ :: _, [], _, _, _ => none
  | (block_text, s, e) :: bs, o :: os, content, offset, cnt =>
    let r := replacementFor dc use_html_wrapper block_text o
    let content2 := pyTakeTo content ((s : Int) + offset) ++ r ++
      pyDropFrom content ((e : Int) + offset)
    replaceLoop dc use_html_wrapper bs os content2
      (offset + r.length - ((e : Int) - (s : Int)))
      (cnt + if outcomeTruthy o then 1 else 0)

/-- `replace_mermaid_with_images_enhanced`: returns the rebuilt content
and the count of successful replacements (`none` models the uncaught
`IndexError` on a too-short `image_paths_info`). -/
def replace_mermaid_with_images_enhanced (markdown_content : List Char)
    (mermaid_blocks : List (List Char × Nat × Nat))
    (image_paths_info : List OutcomeInfo) (diagram_config : DiagramConfig)
    (use_html_wrapper : Bool) : Option (List Char × Nat) :=
  replaceLoop diagram_config use_html_wrapper mermaid_blocks image_paths_info
    markdown_content 0 0

/-- Spec-side reconstruction (from §4.5/§8 of the spec): the output is
the untouched segments of the *original* document interleaved, in order,
with the per-block replacement texts. -/
def rebuildSpec (doc : List Char) (dc : DiagramConfig) (html : Bool) :
    List ((List Char × Nat × Nat) × OutcomeInfo) → Nat → List Char
  | [], pos => doc.drop pos
  | ((block_text, s, e), o) :: rest, pos =>
    (doc.drop pos).take (s - pos) ++ replacementFor dc html block_text o ++
      rebuildSpec doc dc html rest e

/-- The spans are ordered, disjoint and within the document: each block
has `lo ≤ start ≤ end`, and the last `end` is at most the length. -/
def spansOK : Nat → List (List Char × Nat × Nat) → Nat → Bool
  | lo, [], n => decide (lo ≤ n)
  | lo, (_, s, e) :: bs, n => decide (lo ≤ s) && decide (s ≤ e) && spansOK e bs n

example :
    replace_mermaid_with_images_enhanced "A```mermaid x```B".data
      [("x".data, 1, 16)] [(none, false)] [] true =
    some ("A\n\n\n```mermaid\nx\n```\n\nB".data, 0) := by decide

example :
    replace_mermaid_with_images_enhanced "A```mermaid x```B".data
      [("x".data, 1, 16)] [(some "i.svg".data, true)] [] false =
    some ("A\n\n![Mermaid Diagram: flowchart](i.svg)\n\nB".data, 1) := by decide

/-! ## Renderer Dispatch: `generate_diagram_image`

The two backends perform I/O (in-process rendering, HTTP round-trips,
file writes); their observable success/failure is modelled as oracle
functions of the arguments the dispatcher hands them. -/

structure RenderEnv where
  /-- Observable result of `generate_image_from_mermaid_library
  (mermaid_code, output_path, image_format)`. -/
  libraryResult : List Char → List Char → List Char → Bool
  /-- Observable result of `generate_image_with_kroki
  (mermaid_code, output_path, image_format, kroki_url)`. -/
  krokiResult : List Char → List Char → List Char → Option (List Char) → Bool

/-- `generate_diagram_image`: dispatch on the `method` string; any other
discriminator returns `False` (no exception). -/
def generate_diagram_image (env : RenderEnv) (method mermaid_code output_path
    image_format : List Char) (kroki_url : Option (List Char)) : Bool :=
  if method = "library".data then
    env.libraryResult mermaid_code output_path image_format
  else if method = "kroki".data then
    env.krokiResult mermaid_code output_path image_format kroki_url
  else false

/-! ## Pipeline Orchestrator: `process_markdown_file`

I/O effects (file read, directory creation, `os.path` computations, the
module-level `MERMAID_AVAILABLE` flag, `load_diagram_config`) are
modelled as an environment record; keyword arguments as a record of the
fields the claims exercise.  Timing/telemetry fields and the path-string
bookkeeping fields (`output_file_path`, `image_directory`,
`generated_image_paths`) of the stats dict are plain I/O plumbing and
are omitted from the stats model. -/

structure ProcEnv where
  mermaidAvailable : Bool
  renv : RenderEnv
  /-- `open(file).read()`: `none` models a missing file or a read error. -/
  readResult : Option (List Char)
  /-- whether `create_image_directory` succeeds. -/
  mkdirOk : Bool
  /-- `os.path.join(abs_image_dir, image_name)`. -/
  joinImageDir : List Char → List Char
  /-- `os.path.relpath(..)` (or the `as_uri()` fallback) for a given
  absolute image path; always a string, never `None`. -/
  relPathOf : List Char → List Char
  /-- result of `load_diagram_config` when no config is passed in. -/
  loadedConfig : DiagramConfig

structure ProcKwargs where
  image_prefix : List Char
  image_format : List Char
  use_html_wrapper : Bool
  diagram_config : Option DiagramConfig

structure ProcStats where
  total_diagrams : Nat
  successful_conversions : Nat
  failed_conversions : Nat
  all_conversions_successful : Bool
  new_content : List Char
  error : Option (List Char)
  deriving DecidableEq

/-- The per-block loop of `process_markdown_file`: for the `i`-th block
(0-based) synthesize a name, dispatch the render, and record
`(relative_image_path, success_flag)` together with the running
success/failure counts and the `all_successful_flag` accumulator. -/
def processLoop (env : ProcEnv) (method : List Char)
    (kroki_url : Option (List Char)) (kw : ProcKwargs) :
    List (List Char × Nat × Nat) → Nat →
    List OutcomeInfo × Nat × Nat × Bool
  | [], _ => ([], 0, 0, true)
  | (block_text, _, _) :: bs, i =>
    let image_name := create_image_name kw.image_prefix (i + 1) block_text
      kw.image_format
    let abs_image_path := env.joinImageDir image_name
    let success := generate_diagram_image env.renv method block_text
      abs_image_path kw.image_format kroki_url
    let (rest, su, fa, fl) := processLoop env method kroki_url kw bs (i + 1)
    if success then
      ((some (env.relPathOf abs_image_path), true) :: rest, su + 1, fa, fl)
    else
      ((none, false) :: rest, su, fa + 1, false)

def libUnavailableMsg : List Char :=
  "Method library selected, but python-mermaid library is not available".data

def badInputMsg : List Char :=
  "Input path is not a file or does not exist / failed to read".data

def mkdirFailMsg : List Char :=
  "Failed to create image directory".data

/-- `process_markdown_file`: the orchestrator.  `none` models an
exception escaping the function (only the `IndexError` of the rebuilder
could; it is unreachable because the loop emits one outcome per block). -/
def process_markdown_file (env : ProcEnv) (method : List Char)
    (kroki_url : Option (List Char)) (kw : ProcKwargs) : Option ProcStats :=
  let stats0 : ProcStats :=
    { total_diagrams := 0, successful_conversions := 0,
      failed_conversions := 0, all_conversions_successful := false,
      new_content := [], error := none }
  if method = "library".data ∧ env.mermaidAvailable = false then
    some { stats0 with error := some libUnavailableMsg }
  else
    let diagram_config := kw.diagram_config.getD env.loadedConfig
    match env.readResult with
    | none => some { stats0 with error := some badInputMsg }
    | some content =>
      let mermaid_blocks := extract_mermaid_blocks content
      if mermaid_blocks.isEmpty then
        some { stats0 with
                new_content := content
                all_conversions_successful := true }
      else if env.mkdirOk = false then
        some { stats0 with
                new_content := content
                total_diagrams := mermaid_blocks.length
                error := some mkdirFailMsg }
      else
        let (image_paths_info, su, fa, fl) :=
          processLoop env method kroki_url kw mermaid_blocks 0
        match replace_mermaid_with_images_enhanced content mermaid_blocks
          image_paths_info diagram_config kw.use_html_wrapper with
        | none => none
        | some (new_content_str, _) =>
          some { total_diagrams := mermaid_blocks.length
                 successful_conversions := su
                 failed_conversions := fa
                 all_conversions_successful := fl
                 new_content := new_content_str
                 error := none }

/-! ## Supporting lemmas -/

/-- The fixed set of type tags `_determine_diagram_type` can return. -/
def knownTags : List (List Char) :=
  ["sequence".data, "classdiagram".data, "statediagram".data,
   "erdiagram".data, "journey".data, "gantt".data, "pie".data,
   "flowchart".data, "requirement".data, "gitgraph".data]

lemma replaceLoop_none_iff (dc : DiagramConfig) (html : Bool) :
    ∀ (bs : List (List Char × Nat × Nat)) (os : List OutcomeInfo)
      (content : List Char) (offset : Int) (cnt : Nat),
      replaceLoop dc html bs os content offset cnt = none ↔ os.length < bs.length := by
  intro bs
  induction bs with
  | nil => intro os content offset cnt; simp [replaceLoop]
  | cons b bs ih =>
    intro os content offset cnt
    obtain ⟨bt, s, e⟩ := b
    cases os with
    | nil => simp [replaceLoop]
    | cons o os => simp [replaceLoop, ih]

lemma natToStrAux_fuel :
    ∀ (n f1 f2 : Nat) (acc : List Char), n < f1 → n < f2 →
      natToStrAux f1 n acc = natToStrAux f2 n acc := by
  intro n
  induction n using Nat.strong_induction_on with
  | _ n ih =>
    intro f1 f2 acc h1 h2
    cases f1 with
    | zero => omega
    | succ g1 =>
      cases f2 with
      | zero => omega
      | succ g2 =>
        by_cases h : n < 10
        · simp [natToStrAux, h]
        · simp only [natToStrAux, if_neg h]
          exact ih (n / 10) (by omega) g1 g2 _ (by omega) (by omega)

lemma natToStrAux_acc :
    ∀ (fuel n : Nat) (acc : List Char),
      natToStrAux fuel n acc = natToStrAux fuel n [] ++ acc := by
  intro fuel
  induction fuel with
  | zero => intro n acc; simp [natToStrAux]
  | succ fuel ih =>
    intro n acc
    by_cases h : n < 10
    · simp [natToStrAux, h]
    · simp only [natToStrAux, if_neg h]
      rw [ih (n / 10) (Nat.digitChar (n % 10) :: acc),
        ih (n / 10) [Nat.digitChar (n % 10)]]
      simp

lemma natToStr_eq (n : Nat) : natToStr n =
    if n < 10 then [Nat.digitChar n]
    else natToStr (n / 10) ++ [Nat.digitChar (n % 10)] := by
  by_cases h : n < 10
  · simp [natToStr, natToStrAux, h]
  · simp only [natToStr, if_neg h]
    rw [show natToStrAux (n + 1) n [] =
        natToStrAux n (n / 10) [Nat.digitChar (n % 10)] by
      simp [natToStrAux, h]]
    rw [natToStrAux_acc]
    congr 1
    exact natToStrAux_fuel (n / 10) n (n / 10 + 1) [] (by omega) (by omega)

lemma natToStr_ne_nil (n : Nat) : natToStr n ≠ [] := by
  rw [natToStr_eq]; split <;> simp

lemma digitChar_inj_lt10 :
    ∀ a < 10, ∀ b < 10, Nat.digitChar a = Nat.digitChar b → a = b := by decide

lemma natToStr_injective : ∀ m n : Nat, natToStr m = natToStr n → m = n := by
  intro m
  induction m using Nat.strong_induction_on with
  | _ m ih =>
    intro n h
    rw [natToStr_eq m, natToStr_eq n] at h
    by_cases hm : m < 10 <;> by_cases hn : n < 10
    · rw [if_pos hm, if_pos hn] at h
      simp only [List.cons.injEq, and_true] at h
      exact digitChar_inj_lt10 m hm n hn h
    · rw [if_pos hm, if_neg hn] at h
      cases hA : natToStr (n / 10) with
      | nil => exact absurd hA (natToStr_ne_nil (n / 10))
      | cons x xs => rw [hA] at h; simp at h
    · rw [if_neg hm, if_pos hn] at h
      cases hA : natToStr (m / 10) with
      | nil => exact absurd hA (natToStr_ne_nil (m / 10))
      | cons x xs => rw [hA] at h; simp at h
    · rw [if_neg hm, if_neg hn] at h
      have hrev := congrArg List.reverse h
      simp only [List.reverse_append, List.reverse_singleton,
        List.singleton_append, List.cons.injEq] at hrev
      have e1 : m % 10 = n % 10 :=
        digitChar_inj_lt10 _ (by omega) _ (by omega) hrev.1
      have e2 : m / 10 = n / 10 :=
        ih (m / 10) (by omega) (n / 10) (List.reverse_injective hrev.2)
      omega

/-! ## Claim theorems -/

/-- C9: for every backend discriminator other than `"library"` and
`"kroki"`, `generate_diagram_image` returns `False` (and, being a total
function of its environment, does not raise), for all diagram texts,
output paths, formats and URLs. -/
theorem generate_diagram_image_unknown_method (env : RenderEnv)
    (method mermaid_code output_path image_format : List Char)
    (kroki_url : Option (List Char))
    (h1 : method ≠ "library".data) (h2 : method ≠ "kroki".data) :
    generate_diagram_image env method mermaid_code output_path image_format
      kroki_url = false := by
  simp [generate_diagram_image, h1, h2]

def renvAllTrue : RenderEnv :=
  { libraryResult := fun _ _ _ => true, krokiResult := fun _ _ _ _ => true }

theorem generate_diagram_image_unknown_method_witness :
    generate_diagram_image renvAllTrue "mmdc".data "graph TD".data
      "out.svg".data "svg".data none = false :=
  generate_diagram_image_unknown_method renvAllTrue "mmdc".data "graph TD".data
    "out.svg".data "svg".data none (by decide) (by decide)

/-- C10: the rebuilder indexes `image_paths_info[i]` with no length
check: it raises `IndexError` (modelled as `none`) exactly when the
outcome list is shorter than the block list, so equal length per block is
a hard precondition, not defensively handled. -/
theorem replace_mermaid_index_error (markdown_content : List Char)
    (mermaid_blocks : List (List Char × Nat × Nat))
    (image_paths_info : List OutcomeInfo) (dc : DiagramConfig) (html : Bool) :
    replace_mermaid_with_images_enhanced markdown_content mermaid_blocks
        image_paths_info dc html = none ↔
      image_paths_info.length < mermaid_blocks.length :=
  replaceLoop_none_iff dc html mermaid_blocks image_paths_info markdown_content 0 0

/-- C7: `_determine_diagram_type` is total, always returning one of the
ten lowercase tags of its table, and returns `"flowchart"` whenever no
keyword of the table is a prefix of the first significant line. -/
theorem determine_diagram_type_total (s : List Char) :
    determine_diagram_type s ∈ knownTags ∧
    (determine_diagram_type s).all (fun c => c.isLower) = true ∧
    (typeMap.find? (fun kv => kv.1.isPrefixOf (firstSignificantLine s)) = none →
      determine_diagram_type s = "flowchart".data) := by
  have htable : ∀ kv ∈ typeMap,
      kv.2 ∈ knownTags ∧ kv.2.all (fun c => c.isLower) = true := by decide
  cases he : s.isEmpty with
  | true =>
    have h1 : determine_diagram_type s = "flowchart".data := by
      simp [determine_diagram_type, he]
    refine ⟨?_, ?_, fun _ => h1⟩ <;> rw [h1] <;> decide
  | false =>
    cases hf : typeMap.find? (fun kv => kv.1.isPrefixOf (firstSignificantLine s)) with
    | none =>
      have h1 : determine_diagram_type s = "flowchart".data := by
        simp [determine_diagram_type, he, hf]
      refine ⟨?_, ?_, fun _ => h1⟩ <;> rw [h1] <;> decide
    | some kv =>
      have h1 : determine_diagram_type s = kv.2 := by
        simp [determine_diagram_type, he, hf]
      have h2 := htable kv (List.mem_of_find?_eq_some hf)
      refine ⟨by rw [h1]; exact h2.1, by rw [h1]; exact h2.2, fun hnone => ?_⟩
      cases hnone

theorem determine_diagram_type_total_witness :
    determine_diagram_type "hello world".data = "flowchart".data ∧
    determine_diagram_type "hello world".data ∈ knownTags :=
  ⟨(determine_diagram_type_total "hello world".data).2.2 (by decide),
   (determine_diagram_type_total "hello world".data).1⟩

/-- C4 (counterexample): two distinct prefixes that differ only in a
stripped character produce the *same* filename, so changing a single
input does not always change the result. -/
theorem create_image_name_prefix_collision :
    "a".data ≠ "a!".data ∧
    create_image_name "a".data 1 "graph TD".data "svg".data =
      create_image_name "a!".data 1 "graph TD".data "svg".data :=
  ⟨by decide, by decide⟩

/-- C4 (amended): the synthesizer is a pure function of
`(sanitized prefix, index, content hash, lowercased format)`: equal
components give equal filenames; changing the index always changes the
filename, while changing the prefix, diagram text, or format changes it
exactly on a change of its sanitized/hashed/lowercased component. -/
theorem create_image_name_characterization
    (p p' : List Char) (i j : Nat) (c c' f f' : List Char) :
    (pySanitize p = pySanitize p' →
      create_image_name p i c f = create_image_name p' i c f) ∧
    (i ≠ j → create_image_name p i c f ≠ create_image_name p j c f) ∧
    (pySanitize p ≠ pySanitize p' →
      create_image_name p i c f ≠ create_image_name p' i c f) ∧
    (codeHash8 c ≠ codeHash8 c' →
      create_image_name p i c f ≠ create_image_name p i c' f) ∧
    (f.map Char.toLower ≠ f'.map Char.toLower →
      create_image_name p i c f ≠ create_image_name p i c f') := by
  refine ⟨fun h => ?_, fun hij heq => ?_, fun hne heq => ?_,
    fun hne heq => ?_, fun hne heq => ?_⟩
  · unfold create_image_name
    rw [h]
  · unfold create_image_name at heq
    simp only [List.append_assoc] at heq
    replace heq := List.append_cancel_left heq
    replace heq := List.append_cancel_left heq
    exact hij (natToStr_injective i j (List.append_cancel_right heq))
  · unfold create_image_name at heq
    simp only [List.append_assoc] at heq
    exact hne (List.append_cancel_right heq)
  · unfold create_image_name at heq
    simp only [List.append_assoc] at heq
    replace heq := List.append_cancel_left heq
    replace heq := List.append_cancel_left heq
    replace heq := List.append_cancel_left heq
    replace heq := List.append_cancel_left heq
    exact hne (List.append_cancel_right heq)
  · unfold create_image_name at heq
    simp only [List.append_assoc] at heq
    replace heq := List.append_cancel_left heq
    replace heq := List.append_cancel_left heq
    replace heq := List.append_cancel_left heq
    replace heq := List.append_cancel_left heq
    replace heq := List.append_cancel_left heq
    replace heq := List.append_cancel_left heq
    exact hne heq

theorem create_image_name_characterization_witness :
    create_image_name "ab".data 1 "x".data "svg".data =
        create_image_name "a!b".data 1 "x".data "svg".data ∧
    create_image_name "d".data 1 "x".data "svg".data ≠
        create_image_name "d".data 2 "x".data "svg".data ∧
    create_image_name "a".data 1 "x".data "svg".data ≠
        create_image_name "b".data 1 "x".data "svg".data ∧
    create_image_name "d".data 1 "x".data "svg".data ≠
        create_image_name "d".data 1 "y".data "svg".data ∧
    create_image_name "d".data 1 "x".data "svg".data ≠
        create_image_name "d".data 1 "x".data "png".data :=
  ⟨(create_image_name_characterization "ab".data "a!b".data 1 1 "x".data
      "x".data "svg".data "svg".data).1 (by decide),
   (create_image_name_characterization "d".data "d".data 1 2 "x".data
      "x".data "svg".data "svg".data).2.1 (by decide),
   (create_image_name_characterization "a".data "b".data 1 1 "x".data
      "x".data "svg".data "svg".data).2.2.1 (by decide),
   (create_image_name_characterization "d".data "d".data 1 1 "x".data
      "y".data "svg".data "svg".data).2.2.2.1 (by decide),
   (create_image_name_characterization "d".data "d".data 1 1 "x".data
      "x".data "svg".data "png".data).2.2.2.2 (by decide)⟩

/-- C3 (code divergence): for a failed block the rebuilder emits only a
blank line (`warning_comment` is the f-string `"\n"`) followed by the
re-wrapped original fence — the re-wrap happens, but no comment or other
visible failure marker is inserted (the replacement contains no `<!--`,
indeed no `<` at all), contradicting the function's own documentation. -/
theorem replacementFor_failure_no_marker :
    replacementFor [] true "graph TD".data (none, false) =
      "\n\n\n```mermaid\ngraph TD\n```\n\n".data ∧
    "```mermaid\ngraph TD\n```".data <:+:
      replacementFor [] true "graph TD".data (none, false) ∧
    ¬ "<!--".data <:+: replacementFor [] true "graph TD".data (none, false) ∧
    (replacementFor [] true "graph TD".data (none, false)).all
      (fun c => c = '\n' || "```mermaid\ngraph TD\n```".data.contains c) = true :=
  ⟨by decide, by decide, by decide, by decide⟩

lemma matchMermaidAt_pos {l g : List Char} {n : Nat}
    (h : matchMermaidAt l = some (g, n)) : 0 < n := by
  unfold matchMermaidAt at h
  simp only [] at h
  repeat' split at h
  all_goals cases h
  all_goals omega

lemma extractAux_start_le :
    ∀ (fuel : Nat) (l : List Char) (pos : Nat),
      ∀ b ∈ extractAux fuel l pos, pos ≤ b.2.1 := by
  intro fuel
  induction fuel with
  | zero => intro l pos b hb; simp [extractAux] at hb
  | succ fuel ih =>
    intro l pos b hb
    cases l with
    | nil => simp [extractAux] at hb
    | cons c t =>
      rw [extractAux] at hb
      cases hm : matchMermaidAt (c :: t) with
      | some gm =>
        obtain ⟨g, mlen⟩ := gm
        rw [hm] at hb
        rcases List.mem_cons.mp hb with h | h
        · subst h; simp
        · have := ih _ _ b h
          simp only [] at this ⊢
          omega
      | none =>
        rw [hm] at hb
        have := ih _ _ b hb
        omega

lemma extractAux_pairwise :
    ∀ (fuel : Nat) (l : List Char) (pos : Nat),
      (extractAux fuel l pos).Pairwise (fun a b => a.2.1 < b.2.1) := by
  intro fuel
  induction fuel with
  | zero => intro l pos; simp [extractAux]
  | succ fuel ih =>
    intro l pos
    cases l with
    | nil => simp [extractAux]
    | cons c t =>
      rw [extractAux]
      cases hm : matchMermaidAt (c :: t) with
      | some gm =>
        obtain ⟨g, mlen⟩ := gm
        refine List.Pairwise.cons (fun b hb => ?_) (ih _ _)
        have h1 := extractAux_start_le fuel _ _ b hb
        have h2 := matchMermaidAt_pos hm
        simp only []
        omega
      | none => exact ih _ _

lemma extractAux_no_open :
    ∀ (fuel : Nat) (l : List Char) (pos : Nat),
      (∀ i, mermaidOpen.isPrefixOf (l.drop i) = false) →
      extractAux fuel l pos = [] := by
  intro fuel
  induction fuel with
  | zero => intro l pos _; simp [extractAux]
  | succ fuel ih =>
    intro l pos h
    cases l with
    | nil => simp [extractAux]
    | cons c t =>
      rw [extractAux]
      have hm : matchMermaidAt (c :: t) = none := by
        unfold matchMermaidAt
        rw [show mermaidOpen.isPrefixOf (c :: t) = false from h 0]
        simp
      rw [hm]
      exact ih t (pos + 1) (fun i => h (i + 1))

/-- C8: `extract_mermaid_blocks` returns its blocks in strictly
increasing `start_offset` order; the empty document yields `[]`, and any
document not even containing the opening fence text yields `[]` (rather
than an error: the function is total). -/
theorem extract_mermaid_blocks_ordered (doc : List Char) :
    extract_mermaid_blocks [] = [] ∧
    (extract_mermaid_blocks doc).Pairwise (fun a b => a.2.1 < b.2.1) ∧
    (¬ mermaidOpen <:+: doc → extract_mermaid_blocks doc = []) := by
  refine ⟨rfl, extractAux_pairwise _ _ _, fun hno => ?_⟩
  refine extractAux_no_open _ _ _ (fun i => ?_)
  cases hp : mermaidOpen.isPrefixOf (doc.drop i) with
  | false => rfl
  | true =>
    exact absurd (List.infix_iff_prefix_suffix.mpr
      ⟨doc.drop i, List.isPrefixOf_iff_prefix.mp hp, List.drop_suffix i doc⟩) hno

theorem extract_mermaid_blocks_ordered_witness :
    extract_mermaid_blocks "# Title\nplain text".data = [] ∧
    (extract_mermaid_blocks "# Title\nplain text".data).Pairwise
      (fun a b => a.2.1 < b.2.1) :=
  ⟨(extract_mermaid_blocks_ordered "# Title\nplain text".data).2.2 (by decide),
   (extract_mermaid_blocks_ordered "# Title\nplain text".data).2.1⟩

lemma pyIdx_eq {n : Nat} {i : Int} (h0 : 0 ≤ i) (h1 : i ≤ (n : Int)) :
    pyIdx n i = i.toNat := by
  unfold pyIdx
  rw [if_neg (by omega), max_eq_left h0, min_eq_left h1]

lemma spansOK_le :
    ∀ (bs : List (List Char × Nat × Nat)) (lo n : Nat),
      spansOK lo bs n = true → lo ≤ n := by
  intro bs
  induction bs with
  | nil => intro lo n h; simpa [spansOK] using h
  | cons b bs ih =>
    intro lo n h
    obtain ⟨bt, s, e⟩ := b
    simp only [spansOK, Bool.and_eq_true, decide_eq_true_eq] at h
    have := ih e n h.2
    omega

lemma replaceLoop_rebuild (doc : List Char) (dc : DiagramConfig) (html : Bool) :
    ∀ (bs : List (List Char × Nat × Nat)) (os : List OutcomeInfo)
      (P : List Char) (e0 cnt : Nat),
      os.length = bs.length → spansOK e0 bs doc.length = true →
      replaceLoop dc html bs os (P ++ doc.drop e0)
          ((P.length : Int) - (e0 : Int)) cnt =
        some (P ++ rebuildSpec doc dc html (bs.zip os) e0,
          cnt + os.countP outcomeTruthy) := by
  intro bs
  induction bs with
  | nil =>
    intro os P e0 cnt hlen hok
    have hos : os = [] := List.length_eq_zero.mp (by simpa using hlen)
    subst hos
    simp [replaceLoop, rebuildSpec]
  | cons b bs ih =>
    intro os P e0 cnt hlen hok
    obtain ⟨bt, s, e⟩ := b
    cases os with
    | nil => simp at hlen
    | cons o os =>
      simp only [spansOK, Bool.and_eq_true, decide_eq_true_eq] at hok
      obtain ⟨⟨h1, h2⟩, hok'⟩ := hok
      have hen : e ≤ doc.length := spansOK_le bs e doc.length hok'
      have hsn : s ≤ doc.length := le_trans h2 hen
      have hTake : pyTakeTo (P ++ doc.drop e0)
          ((s : Int) + ((P.length : Int) - (e0 : Int))) =
          P ++ (doc.drop e0).take (s - e0) := by
        unfold pyTakeTo
        have ha : (0 : Int) ≤ (s : Int) + ((P.length : Int) - (e0 : Int)) := by
          omega
        have hb : (s : Int) + ((P.length : Int) - (e0 : Int)) ≤
            ((P ++ doc.drop e0).length : Int) := by
          simp only [List.length_append, List.length_drop]
          omega
        rw [pyIdx_eq ha hb]
        rw [show ((s : Int) + ((P.length : Int) - (e0 : Int))).toNat =
          P.length + (s - e0) by omega]
        have htk : P.take (P.length + (s - e0)) = P :=
          List.take_of_length_le (by omega)
        rw [List.take_append_eq_append_take, htk,
          show P.length + (s - e0) - P.length = s - e0 by omega]
      have hDrop : pyDropFrom (P ++ doc.drop e0)
          ((e : Int) + ((P.length : Int) - (e0 : Int))) = doc.drop e := by
        unfold pyDropFrom
        have ha : (0 : Int) ≤ (e : Int) + ((P.length : Int) - (e0 : Int)) := by
          omega
        have hb : (e : Int) + ((P.length : Int) - (e0 : Int)) ≤
            ((P ++ doc.drop e0).length : Int) := by
          simp only [List.length_append, List.length_drop]
          omega
        rw [pyIdx_eq ha hb]
        rw [show ((e : Int) + ((P.length : Int) - (e0 : Int))).toNat =
          P.length + (e - e0) by omega]
        have hdp : P.drop (P.length + (e - e0)) = [] :=
          List.drop_eq_nil_of_le (by omega)
        rw [List.drop_append_eq_append_drop, hdp]
        rw [show P.length + (e - e0) - P.length = e - e0 by omega]
        rw [List.nil_append, List.drop_drop,
          show e0 + (e - e0) = e by omega]
      simp only [replaceLoop]
      rw [hTake, hDrop]
      have hlenP' : ((P ++ (doc.drop e0).take (s - e0)) ++
          replacementFor dc html bt o).length =
          P.length + (s - e0) + (replacementFor dc html bt o).length := by
        simp only [List.length_append, List.length_take, List.length_drop]
        omega
      rw [show ((P.length : Int) - (e0 : Int) +
          ((replacementFor dc html bt o).length : Int) -
          ((e : Int) - (s : Int))) =
          ((((P ++ (doc.drop e0).take (s - e0)) ++
            replacementFor dc html bt o).length : Int) - (e : Int)) by
        rw [hlenP']; omega]
      rw [ih os _ e (cnt + if outcomeTruthy o = true then 1 else 0)
        (by simpa using hlen) hok']
      simp only [rebuildSpec, List.zip_cons_cons, List.countP_cons,
        List.append_assoc]
      rw [show (cnt + if outcomeTruthy o = true then 1 else 0) +
          os.countP outcomeTruthy =
          cnt + (os.countP outcomeTruthy +
            if outcomeTruthy o = true then 1 else 0) by omega]
      rfl

lemma rebuildSpec_length (doc : List Char) (dc : DiagramConfig) (html : Bool) :
    ∀ (pairs : List ((List Char × Nat × Nat) × OutcomeInfo)) (e0 : Nat),
      spansOK e0 (pairs.map Prod.fst) doc.length = true →
      ((rebuildSpec doc dc html pairs e0).length : Int) =
        ((doc.length : Int) - (e0 : Int)) +
          (pairs.map (fun bi =>
            ((replacementFor dc html bi.1.1 bi.2).length : Int) -
              ((bi.1.2.2 : Int) - (bi.1.2.1 : Int)))).sum := by
  intro pairs
  induction pairs with
  | nil =>
    intro e0 h
    simp only [List.map_nil, spansOK, decide_eq_true_eq] at h
    simp only [rebuildSpec, List.length_drop, List.map_nil, List.sum_nil]
    omega
  | cons bi rest ih =>
    intro e0 h
    obtain ⟨⟨bt, s, e⟩, o⟩ := bi
    simp only [List.map_cons, spansOK, Bool.and_eq_true, decide_eq_true_eq] at h
    obtain ⟨⟨h1, h2⟩, h3⟩ := h
    have hen : e ≤ doc.length := spansOK_le _ _ _ h3
    simp only [rebuildSpec, List.length_append, List.length_take,
      List.length_drop, List.map_cons, List.sum_cons]
    push_cast
    rw [ih e h3]
    omega

/-- C1: under the documented preconditions (one outcome per block, spans
ordered, disjoint and within the document), the rebuilder succeeds and
returns exactly the original document's untouched segments interleaved in
order with the per-block replacement texts (`rebuildSpec`), whose length
is the input length plus the sum over all blocks of (replacement length
minus original span length). -/
theorem replace_mermaid_rebuild_invariant (doc : List Char)
    (blocks : List (List Char × Nat × Nat)) (info : List OutcomeInfo)
    (dc : DiagramConfig) (html : Bool)
    (hlen : info.length = blocks.length)
    (hspans : spansOK 0 blocks doc.length = true) :
    replace_mermaid_with_images_enhanced doc blocks info dc html =
      some (rebuildSpec doc dc html (blocks.zip info) 0,
        info.countP outcomeTruthy) ∧
    ((rebuildSpec doc dc html (blocks.zip info) 0).length : Int) =
      (doc.length : Int) +
        ((blocks.zip info).map (fun bi =>
          ((replacementFor dc html bi.1.1 bi.2).length : Int) -
            ((bi.1.2.2 : Int) - (bi.1.2.1 : Int)))).sum := by
  constructor
  · have h := replaceLoop_rebuild doc dc html blocks info [] 0 0 hlen hspans
    simpa [replace_mermaid_with_images_enhanced] using h
  · have hmap : (blocks.zip info).map Prod.fst = blocks :=
      List.map_fst_zip _ _ (le_of_eq hlen.symm)
    have h := rebuildSpec_length doc dc html (blocks.zip info) 0
      (by rw [hmap]; exact hspans)
    simpa using h

theorem replace_mermaid_rebuild_invariant_witness :
    replace_mermaid_with_images_enhanced "A```mermaid x```B".data
        [("x".data, 1, 16)] [(none, false)] [] true =
      some (rebuildSpec "A```mermaid x```B".data [] true
          ([("x".data, 1, 16)].zip [((none : Option (List Char)), false)]) 0,
        ([((none : Option (List Char)), false)] : List OutcomeInfo).countP
          outcomeTruthy) ∧
    ((rebuildSpec "A```mermaid x```B".data [] true
        ([("x".data, 1, 16)].zip [((none : Option (List Char)), false)]) 0).length : Int) =
      (("A```mermaid x```B".data.length : Int)) +
        (([("x".data, 1, 16)].zip [((none : Option (List Char)), false)]).map
          (fun bi => ((replacementFor [] true bi.1.1 bi.2).length : Int) -
            ((bi.1.2.2 : Int) - (bi.1.2.1 : Int)))).sum :=
  replace_mermaid_rebuild_invariant "A```mermaid x```B".data
    [("x".data, 1, 16)] [(none, false)] [] true (by decide) (by decide)

lemma processLoop_spec (env : ProcEnv) (method : List Char)
    (kroki_url : Option (List Char)) (kw : ProcKwargs) :
    ∀ (bs : List (List Char × Nat × Nat)) (i : Nat),
      (processLoop env method kroki_url kw bs i).1.length = bs.length ∧
      (processLoop env method kroki_url kw bs i).2.1 +
        (processLoop env method kroki_url kw bs i).2.2.1 = bs.length ∧
      ((processLoop env method kroki_url kw bs i).2.2.2 = true ↔
        (processLoop env method kroki_url kw bs i).2.2.1 = 0) := by
  intro bs
  induction bs with
  | nil => intro i; simp [processLoop]
  | cons b bs ih =>
    intro i
    obtain ⟨bt, s, e⟩ := b
    have h := ih (i + 1)
    rcases hrec : processLoop env method kroki_url kw bs (i + 1) with
      ⟨info, su, fa, fl⟩
    rw [hrec] at h
    dsimp only at h
    simp only [processLoop, hrec]
    split
    · dsimp only
      refine ⟨?_, ?_, h.2.2⟩
      · simp [h.1]
      · simp only [List.length_cons]
        omega
    · dsimp only
      refine ⟨?_, ?_, by simp⟩
      · simp [h.1]
      · simp only [List.length_cons]
        omega

/-- C6: every entry of `image_paths_info` built by the orchestrator's
per-block loop is either `(non-null relative path, true)` or
`(null, false)`: the relative path is non-null iff the success flag is
true. -/
theorem processLoop_outcome_invariant (env : ProcEnv) (method : List Char)
    (kroki_url : Option (List Char)) (kw : ProcKwargs)
    (bs : List (List Char × Nat × Nat)) (i : Nat) :
    ∀ p ∈ (processLoop env method kroki_url kw bs i).1,
      (∃ q, p = (some q, true)) ∨ p = (none, false) := by
  induction bs generalizing i with
  | nil => intro p hp; simp [processLoop] at hp
  | cons b bs ih =>
    intro p hp
    obtain ⟨bt, s, e⟩ := b
    rcases hrec : processLoop env method kroki_url kw bs (i + 1) with
      ⟨info, su, fa, fl⟩
    simp only [processLoop, hrec] at hp
    split at hp
    · dsimp only at hp
      rcases List.mem_cons.mp hp with hh | hh
      · exact Or.inl ⟨_, hh⟩
      · exact ih (i + 1) p (by rw [hrec]; exact hh)
    · dsimp only at hp
      rcases List.mem_cons.mp hp with hh | hh
      · exact Or.inr hh
      · exact ih (i + 1) p (by rw [hrec]; exact hh)

def kwDefault : ProcKwargs :=
  { image_prefix := "diagram".data, image_format := "svg".data,
    use_html_wrapper := true, diagram_config := none }

def envLoopW : ProcEnv :=
  { mermaidAvailable := true, renv := renvAllTrue,
    readResult := some "x".data, mkdirOk := true,
    joinImageDir := fun _ => "j".data, relPathOf := fun _ => "p".data,
    loadedConfig := [] }

theorem processLoop_outcome_invariant_witness :
    (∃ q, ((some "p".data, true) : OutcomeInfo) = (some q, true)) ∨
      ((some "p".data, true) : OutcomeInfo) = (none, false) :=
  processLoop_outcome_invariant envLoopW "kroki".data none kwDefault
    [("graph TD".data, 0, 20)] 0 (some "p".data, true) (by decide)

/-- C2: for a document that reads successfully and contains zero fenced
mermaid blocks (and a usable method selection), `process_markdown_file`
returns the original content unchanged, `all_conversions_successful =
true`, `total_diagrams = 0`, and no error. -/
theorem process_no_blocks (env : ProcEnv) (method : List Char)
    (kroki_url : Option (List Char)) (kw : ProcKwargs) (content : List Char)
    (hread : env.readResult = some content)
    (hblocks : extract_mermaid_blocks content = [])
    (hmethod : ¬(method = "library".data ∧ env.mermaidAvailable = false)) :
    process_markdown_file env method kroki_url kw =
      some { total_diagrams := 0, successful_conversions := 0,
             failed_conversions := 0, all_conversions_successful := true,
             new_content := content, error := none } := by
  unfold process_markdown_file
  rw [if_neg hmethod, hread]
  simp [hblocks]

def envNoBlocksW : ProcEnv :=
  { mermaidAvailable := true, renv := renvAllTrue,
    readResult := some "# T\n".data, mkdirOk := true,
    joinImageDir := fun n => n, relPathOf := fun p => p,
    loadedConfig := [] }

theorem process_no_blocks_witness :
    process_markdown_file envNoBlocksW "kroki".data none kwDefault =
      some { total_diagrams := 0, successful_conversions := 0,
             failed_conversions := 0, all_conversions_successful := true,
             new_content := "# T\n".data, error := none } :=
  process_no_blocks envNoBlocksW "kroki".data none kwDefault "# T\n".data rfl
    (by decide) (by decide)

/-- C5 (amended): `process_markdown_file` always returns a full result;
in every run that does not short-circuit with a terminal error
(`error = none`), every extracted block is attempted
(`successful + failed = total`) and `all_conversions_successful` is true
iff the failed count is zero; runs that short-circuit report
`all_conversions_successful = false` with `failed = 0`, so over all runs
the flag is true iff (failed = 0 and no error). -/
theorem process_flag_characterization (env : ProcEnv) (method : List Char)
    (kroki_url : Option (List Char)) (kw : ProcKwargs) (s : ProcStats)
    (h : process_markdown_file env method kroki_url kw = some s) :
    (s.all_conversions_successful = true ↔
      (s.failed_conversions = 0 ∧ s.error = none)) ∧
    (s.error = none →
      s.successful_conversions + s.failed_conversions = s.total_diagrams) := by
  unfold process_markdown_file at h
  split at h
  · cases h; simp
  · cases hre : env.readResult with
    | none => rw [hre] at h; cases h; simp
    | some content =>
      rw [hre] at h
      simp only [] at h
      split at h
      · cases h; simp
      · split at h
        · cases h; simp
        · rcases hq : processLoop env method kroki_url kw
            (extract_mermaid_blocks content) 0 with ⟨info, su, fa, fl⟩
          rw [hq] at h
          simp only [] at h
          have hl := processLoop_spec env method kroki_url kw
            (extract_mermaid_blocks content) 0
          rw [hq] at hl
          simp only [] at hl
          cases hr : replace_mermaid_with_images_enhanced content
              (extract_mermaid_blocks content) info
              (kw.diagram_config.getD env.loadedConfig) kw.use_html_wrapper with
          | none => rw [hr] at h; cases h
          | some pr =>
            obtain ⟨nc, cnt⟩ := pr
            rw [hr] at h
            cases h
            refine ⟨by simpa using hl.2.2, fun _ => by simpa using hl.2.1⟩

def envReadFailW : ProcEnv :=
  { mermaidAvailable := true, renv := renvAllTrue,
    readResult := none, mkdirOk := true,
    joinImageDir := fun n => n, relPathOf := fun p => p,
    loadedConfig := [] }

/-- C5 (counterexample): in the run on a missing/unreadable file the
returned stats have `failed_conversions = 0` but
`all_conversions_successful = false`, so the claimed unconditional
"flag is true iff failed count is zero" is false for that run. -/
theorem process_flag_counterexample :
    ¬ ∀ s : ProcStats,
        process_markdown_file envReadFailW "kroki".data none kwDefault =
            some s →
          (s.all_conversions_successful = true ↔ s.failed_conversions = 0) := by
  intro hall
  have h := hall
    { total_diagrams := 0, successful_conversions := 0,
      failed_conversions := 0, all_conversions_successful := false,
      new_content := [], error := some badInputMsg } (by decide)
  simp at h

def envFlagW : ProcEnv :=
  { mermaidAvailable := true, renv := renvAllTrue,
    readResult := some "plain".data, mkdirOk := true,
    joinImageDir := fun n => n, relPathOf := fun p => p,
    loadedConfig := [] }

theorem process_flag_characterization_witness :
    ((true = true) ↔ ((0 : Nat) = 0 ∧ (none : Option (List Char)) = none)) ∧
    ((none : Option (List Char)) = none → 0 + 0 = 0) :=
  process_flag_characterization envFlagW "kroki".data none kwDefault
    { total_diagrams := 0, successful_conversions := 0,
      failed_conversions := 0, all_conversions_successful := true,
      new_content := "plain".data, error := none } (by decide)

end MdRenderGuard
